import Mathlib

/-!
The lrexlib TRE binding (src/ltre.c): embedding and checked properties

The binding glue of `ltre.c` is embedded as pure functions.  The TRE engine
(`regncomp`, `regnexec`, `reganexec`, `regerror`, `regfree`, `tre_have_approx`),
the header constants (`REG_NOMATCH`, `REG_NOTBOL`, `REG_NOSUB`) and the helpers
that live in `common.c` / `algo.h` (`get_startoffset`, `Lmalloc`,
`push_substring_table`, `push_offset_table`) are not part of `ltre.c`; they are
taken as parameters, gathered in the structure `Externals`.

Conventions.
* C `int` values are `Int`; `size_t` values are `Nat`.  Conversions between the
  two are explicit (`size_to_int`, `int_to_size`) and wrap as on an LP64
  platform.  Signed `int` arithmetic, whose overflow is undefined in C, is exact
  integer arithmetic.
* A `const char *` is a buffer together with an offset (`CharPtr`).
* A Lua error raised with `luaL_error` is `Except.error`.
* Every engine invocation is recorded, with its arguments, in the outcome.
-/

namespace Ltre

/-! ## Machine integers -/

/-- Largest value of a C `int`. -/
def INT_MAX : Int := 2147483647

/-- Number of values of a `size_t` (64 bit). -/
def SIZE_MOD : Nat := 2 ^ 64

/-- Conversion `(int) n` of a `size_t` to a 32 bit `int` (wraps modulo 2^32). -/
def size_to_int (n : Nat) : Int :=
  if n % 2 ^ 32 < 2 ^ 31 then ((n % 2 ^ 32 : Nat) : Int)
  else ((n % 2 ^ 32 : Nat) : Int) - 2 ^ 32

/-- Conversion of a (64 bit) `lua_Integer` to a 32 bit `int`. -/
def to_int (i : Int) : Int :=
  if i % 2 ^ 32 < 2 ^ 31 then i % 2 ^ 32 else i % 2 ^ 32 - 2 ^ 32

/-- Conversion of an `int` to `size_t` (wraps modulo 2^64). -/
def int_to_size (i : Int) : Nat := (i % (SIZE_MOD : Int)).toNat

/-- The `size_t` subtraction `n - i` where `i` is an `int` operand. -/
def size_sub_int (n : Nat) (i : Int) : Nat := int_to_size ((n : Int) - i)

/-! ## Engine data (tre/regex.h) -/

/-- The `regex_t` of the engine: the group count and the compiled automaton. -/
structure regex_t where
  re_nsub : Nat
  value : Nat
  deriving DecidableEq, Repr

/-- One slot of the match buffer (`regoff_t` is `int`). -/
structure regmatch_t where
  rm_so : Int
  rm_eo : Int
  deriving DecidableEq, Repr

/-- The approximate matching parameters `regaparams_t`. -/
structure regaparams_t where
  cost_ins : Int
  cost_del : Int
  cost_subst : Int
  max_cost : Int
  max_ins : Int
  max_del : Int
  max_subst : Int
  max_err : Int
  deriving DecidableEq, Repr

/-- A `const char *`: the subject buffer and an offset into it. -/
structure CharPtr where
  buf : List Char
  off : Int
  deriving DecidableEq, Repr

/-- Pointer arithmetic `p + i`. -/
def CharPtr.add (p : CharPtr) (i : Int) : CharPtr := { p with off := p.off + i }

/-- The `len` bytes found at `p` (reading outside the buffer is not defined in
C; the model yields the bytes that are inside). -/
def CharPtr.read (p : CharPtr) (len : Nat) : List Char :=
  if 0 ≤ p.off then (p.buf.drop p.off.toNat).take len else []

/-- `sizeof (regmatch_t)`: two `int` fields. -/
def sizeof_regmatch_t : Nat := 8

/-! ## The userdata -/

/-- The struct `TPosix`: `match_` is the field `match` (`none` is `NULL`). -/
structure TPosix where
  r : regex_t
  match_ : Option (List regmatch_t)
  freed : Int
  deriving DecidableEq, Repr

/-! ## Lua values -/

/-- A value stored in a table field. -/
inductive LuaScalar where
  | nil
  | boolean (b : Bool)
  | number (n : Int)
  | string (s : List Char)
  | other
  deriving DecidableEq, Repr

/-- A Lua table: array part and dictionary part (first binding of a key wins). -/
structure LuaTable where
  arr : List LuaScalar
  dict : List (String × LuaScalar)
  deriving DecidableEq, Repr

/-- A value on the Lua stack.  Numbers are the integral ones; `userdata` is a
userdata carrying the metatable of this library; `other` is any other value. -/
inductive LuaValue where
  | nil
  | boolean (b : Bool)
  | number (n : Int)
  | string (s : List Char)
  | table (t : LuaTable)
  | userdata (ud : TPosix)
  | other
  deriving DecidableEq, Repr

/-- The struct `TArgExec` (common.h), with the fields used in `ltre.c`. -/
structure TArgExec where
  text : CharPtr
  textlen : Nat
  startoffset : Int
  eflags : Int
  deriving DecidableEq, Repr

/-- The struct `TArgComp` (common.h), with the fields used in `ltre.c`. -/
structure TArgComp where
  pattern : List Char
  patlen : Nat
  cflags : Int
  deriving DecidableEq, Repr

/-! ## Engine calls -/

/-- The arguments of one `regnexec` call. -/
structure RegnexecCall where
  preg : regex_t
  str : CharPtr
  len : Nat
  nmatch : Nat
  pmatch : Option (List regmatch_t)
  eflags : Int
  deriving DecidableEq, Repr

/-- The arguments of one `reganexec` call (`nmatch` and `pmatch` are the fields
of the `regamatch_t` handed in). -/
structure ReganexecCall where
  preg : regex_t
  str : CharPtr
  len : Nat
  nmatch : Nat
  pmatch : Option (List regmatch_t)
  params : regaparams_t
  eflags : Int
  deriving DecidableEq, Repr

/-- What `regnexec` leaves behind: its return code and the slots it wrote. -/
structure RegnexecResult where
  code : Int
  written : List regmatch_t
  deriving DecidableEq, Repr

/-- What `reganexec` leaves behind: its return code, the slots it wrote and the
remaining fields of `regamatch_t`. -/
structure ReganexecResult where
  code : Int
  written : List regmatch_t
  cost : Int
  num_ins : Int
  num_del : Int
  num_subst : Int
  deriving DecidableEq, Repr

/-- Everything `ltre.c` uses and does not define. -/
structure Externals where
  REG_NOMATCH : Int
  REG_NOTBOL : Int
  REG_NOSUB : Int
  regncomp : List Char → Nat → Int → Int × regex_t
  regnexec : RegnexecCall → RegnexecResult
  reganexec : ReganexecCall → ReganexecResult
  regerror : Int → regex_t → String
  tre_have_backrefs : regex_t → Int
  tre_have_approx : regex_t → Int
  Lmalloc : Nat → Except String Unit
  get_startoffset : LuaValue → Nat → Except String Int
  push_substring_table : TPosix → CharPtr → LuaTable
  push_offset_table : TPosix → Int → LuaTable
  str2number : List Char → Option Int
  number2str : Int → List Char

/-! ## Lua C API, on the values above -/

/-- Argument `i` (1-based) of a call; an absent argument reads as `nil`. -/
def arg (args : List LuaValue) (i : Nat) : LuaValue := args.getD (i - 1) LuaValue.nil

/-- `lua_getfield` on a table without metatable: `nil` for an absent key. -/
def lua_getfield (t : LuaTable) (field : String) : LuaScalar :=
  match t.dict.find? (fun p => p.1 == field) with
  | some p => p.2
  | none => LuaScalar.nil

/-- `lua_setfield` on a table without metatable. -/
def lua_setfield (t : LuaTable) (field : String) (v : LuaScalar) : LuaTable :=
  { t with dict := (field, v) :: t.dict.filter (fun p => p.1 != field) }

/-- `lua_tointeger`: the number, the number a string converts to, else 0. -/
def lua_tointeger (E : Externals) : LuaScalar → Int
  | LuaScalar.number n => n
  | LuaScalar.string s => (E.str2number s).getD 0
  | _ => 0

/-- `luaL_checkudata (L, pos, posix_handle)`. -/
def luaL_checkudata : LuaValue → Except String TPosix
  | LuaValue.userdata ud => Except.ok ud
  | _ => Except.error "rex_tre_regex expected"

/-- `luaL_checklstring`: a string, or a number converted to one. -/
def luaL_checklstring (E : Externals) : LuaValue → Except String (List Char)
  | LuaValue.string s => Except.ok s
  | LuaValue.number n => Except.ok (E.number2str n)
  | _ => Except.error "string expected"

/-- `luaL_optint (L, pos, d)`, the result converted to `int`. -/
def luaL_optint (E : Externals) (v : LuaValue) (d : Int) : Except String Int :=
  match v with
  | LuaValue.nil => Except.ok (to_int d)
  | LuaValue.number n => Except.ok (to_int n)
  | LuaValue.string s =>
    match E.str2number s with
    | some n => Except.ok (to_int n)
    | none => Except.error "number expected"
  | _ => Except.error "number expected"

/-! ## ltre.c: macros -/

def EFLAGS_DEFAULT : Int := 0

def CODE_NOMATCH (E : Externals) : Int := E.REG_NOMATCH

def IS_MATCH (res : Int) : Bool := res == 0

/-- The slot `ud->match[n]` (reading outside the buffer is not defined in C;
the model then yields a zero slot). -/
def slot (ud : TPosix) (n : Nat) : regmatch_t := (ud.match_.getD []).getD n ⟨0, 0⟩

def SUB_BEG (ud : TPosix) (n : Nat) : Int := (slot ud n).rm_so

def SUB_END (ud : TPosix) (n : Nat) : Int := (slot ud n).rm_eo

def SUB_LEN (ud : TPosix) (n : Nat) : Int := SUB_END ud n - SUB_BEG ud n

def SUB_VALID (ud : TPosix) (n : Nat) : Bool := decide (SUB_BEG ud n ≥ 0)

def NSUB (ud : TPosix) : Int := size_to_int ud.r.re_nsub

/-- `lua_pushlstring (L, text + SUB_BEG, SUB_LEN)`: the value pushed. -/
def PUSH_SUB (ud : TPosix) (text : CharPtr) (n : Nat) : LuaValue :=
  LuaValue.string ((text.add (SUB_BEG ud n)).read (int_to_size (SUB_LEN ud n)))

def PUSH_SUB_OR_FALSE (ud : TPosix) (text : CharPtr) (n : Nat) : LuaValue :=
  if SUB_VALID ud n then PUSH_SUB ud text n else LuaValue.boolean false

def PUSH_START (ud : TPosix) (offs : Int) (n : Nat) : LuaValue :=
  LuaValue.number (offs + SUB_BEG ud n + 1)

def PUSH_END (ud : TPosix) (offs : Int) (n : Nat) : LuaValue :=
  LuaValue.number (offs + SUB_END ud n)

/-- The two values pushed, in stack order. -/
def PUSH_OFFSETS (ud : TPosix) (offs : Int) (n : Nat) : List LuaValue :=
  [PUSH_START ud offs n, PUSH_END ud offs n]

/-! ## ltre.c: functions -/

/-- The table must be on the Lua stack top. -/
def get_int_field (E : Externals) (t : LuaTable) (field : String) : Int :=
  to_int (lua_tointeger E (lua_getfield t field))

/-- The table must be on the Lua stack top. -/
def set_int_field (t : LuaTable) (field : String) (val : Int) : LuaTable :=
  lua_setfield t field (LuaScalar.number val)

def checkarg_regaparams (E : Externals) (v : LuaValue) : Except String regaparams_t :=
  match v with
  | LuaValue.table t =>
    Except.ok
      { cost_ins := get_int_field E t "cost_ins"
        cost_del := get_int_field E t "cost_del"
        cost_subst := get_int_field E t "cost_subst"
        max_cost := get_int_field E t "max_cost"
        max_ins := get_int_field E t "max_ins"
        max_del := get_int_field E t "max_del"
        max_subst := get_int_field E t "max_subst"
        max_err := get_int_field E t "max_err" }
  | _ => Except.error "table expected"

def check_ud (v : LuaValue) : Except String TPosix := luaL_checkudata v

/-- Method `r:atfind (s, params, [st], [ef])` and `r:aexec (s, params, [st], [ef])`. -/
def checkarg_atfind (E : Externals) (args : List LuaValue) :
    Except String (TArgExec × TPosix × regaparams_t) :=
  match check_ud (arg args 1) with
  | Except.error e => Except.error e
  | Except.ok ud =>
    match luaL_checklstring E (arg args 2) with
    | Except.error e => Except.error e
    | Except.ok s =>
      match checkarg_regaparams E (arg args 3) with
      | Except.error e => Except.error e
      | Except.ok argP =>
        match E.get_startoffset (arg args 4) s.length with
        | Except.error e => Except.error e
        | Except.ok st =>
          match luaL_optint E (arg args 5) EFLAGS_DEFAULT with
          | Except.error e => Except.error e
          | Except.ok ef =>
            Except.ok
              ({ text := ⟨s, 0⟩, textlen := s.length, startoffset := st, eflags := ef },
               ud, argP)

/-- `regerror` into a buffer, then `luaL_error (L, "%s", errbuf)`. -/
def generate_error {α : Type} (E : Externals) (ud : TPosix) (errcode : Int) : Except String α :=
  Except.error (E.regerror errcode ud.r)

/-- A fresh block of `size` bytes seen as an array of `regmatch_t`: it has
`size / sizeof (regmatch_t)` slots (their content is indeterminate in C; the
model fills them with zero slots). -/
def block (size : Nat) : List regmatch_t := List.replicate (size / sizeof_regmatch_t) ⟨0, 0⟩

/-- The userdata handed back through `pud` on success, or the error raised.
The new userdata has all members 0 before `regncomp` fills in `r`. -/
def compile_regex (E : Externals) (argC : TArgComp) : Except String TPosix :=
  let ud : TPosix := { r := ⟨0, 0⟩, match_ := none, freed := 0 }
  let res := E.regncomp argC.pattern argC.patlen argC.cflags
  let ud := { ud with r := res.2 }
  if res.1 ≠ 0 then generate_error E ud res.1
  else
    let ud := if Int.land argC.cflags E.REG_NOSUB ≠ 0 then { ud with r := { ud.r with re_nsub := 0 } } else ud
    match E.Lmalloc ((int_to_size (NSUB ud + 1) * sizeof_regmatch_t) % SIZE_MOD) with
    | Except.error e => Except.error e
    | Except.ok _ =>
      Except.ok
        { ud with
          match_ := some (block ((int_to_size (NSUB ud + 1) * sizeof_regmatch_t) % SIZE_MOD)) }

/-- The engine writes at most `nmatch` slots through the `pmatch` pointer. -/
def store_matches : List regmatch_t → Nat → List regmatch_t → List regmatch_t
  | [], _, _ => []
  | b :: bs, 0, _ => b :: bs
  | b :: bs, _ + 1, [] => b :: bs
  | _ :: bs, n + 1, w :: ws => w :: store_matches bs n ws

/-- The userdata once the engine has written through `ud->match`. -/
def after_exec (ud : TPosix) (nmatch : Nat) (written : List regmatch_t) : TPosix :=
  { ud with match_ := ud.match_.map (fun b => store_matches b nmatch written) }

/-- Outcome of one of the `*_exec` helpers: the return code, the `TArgExec` and
userdata as the helper leaves them, and the engine call it made. -/
structure ExecOutcome where
  code : Int
  argE : TArgExec
  ud : TPosix
  call : RegnexecCall
  deriving DecidableEq, Repr

def tfind_exec (E : Externals) (ud : TPosix) (argE : TArgExec) : ExecOutcome :=
  let argE := { argE with text := argE.text.add argE.startoffset }
  let call : RegnexecCall :=
    { preg := ud.r, str := argE.text, len := size_sub_int argE.textlen argE.startoffset,
      nmatch := int_to_size (NSUB ud + 1), pmatch := ud.match_, eflags := argE.eflags }
  let res := E.regnexec call
  { code := res.code, argE := argE, ud := after_exec ud call.nmatch res.written, call := call }

/-- Outcome of `generic_atfind`: the values returned to Lua or the error raised,
the engine searches performed, and the userdata as the call leaves it (when the
arguments were accepted). -/
structure AtfindOutcome where
  ret : Except String (List LuaValue)
  calls : List ReganexecCall
  ud : Option TPosix

def generic_atfind (E : Externals) (args : List LuaValue) (tfind : Int) : AtfindOutcome :=
  match checkarg_atfind E args with
  | Except.error e => { ret := Except.error e, calls := [], ud := none }
  | Except.ok (argE, ud, argP) =>
    if argE.startoffset > size_to_int argE.textlen then
      { ret := Except.ok [LuaValue.nil], calls := [], ud := some ud }
    else
      let argE := { argE with text := argE.text.add argE.startoffset }
      let call : ReganexecCall :=
        { preg := ud.r, str := argE.text, len := size_sub_int argE.textlen argE.startoffset,
          nmatch := int_to_size (NSUB ud + 1), pmatch := ud.match_, params := argP,
          eflags := argE.eflags }
      /- execute the search -/
      let res_match := E.reganexec call
      let res := res_match.code
      let ud := after_exec ud call.nmatch res_match.written
      if IS_MATCH res then
        let offsets := PUSH_OFFSETS ud argE.startoffset 0
        let t :=
          if tfind ≠ 0 then E.push_substring_table ud argE.text
          else E.push_offset_table ud argE.startoffset
        /- set values in the dictionary part of the table -/
        let t := set_int_field t "cost" res_match.cost
        let t := set_int_field t "num_ins" res_match.num_ins
        let t := set_int_field t "num_del" res_match.num_del
        let t := set_int_field t "num_subst" res_match.num_subst
        { ret := Except.ok (offsets ++ [LuaValue.table t]), calls := [call], ud := some ud }
      else if res = CODE_NOMATCH E then
        { ret := Except.ok [LuaValue.nil], calls := [call], ud := some ud }
      else
        { ret := generate_error E ud res, calls := [call], ud := some ud }

def Ltre_atfind (E : Externals) (args : List LuaValue) : AtfindOutcome :=
  generic_atfind E args 1

def Ltre_aexec (E : Externals) (args : List LuaValue) : AtfindOutcome :=
  generic_atfind E args 0

def gmatch_exec (E : Externals) (ud : TPosix) (argE : TArgExec) : ExecOutcome :=
  let argE :=
    if argE.startoffset > 0 then { argE with eflags := Int.lor argE.eflags E.REG_NOTBOL }
    else argE
  let argE := { argE with text := argE.text.add argE.startoffset }
  let call : RegnexecCall :=
    { preg := ud.r, str := argE.text, len := size_sub_int argE.textlen argE.startoffset,
      nmatch := int_to_size (NSUB ud + 1), pmatch := ud.match_, eflags := argE.eflags }
  let res := E.regnexec call
  { code := res.code, argE := argE, ud := after_exec ud call.nmatch res.written, call := call }

def findmatch_exec (E : Externals) (ud : TPosix) (argE : TArgExec) : ExecOutcome :=
  let argE := { argE with text := argE.text.add argE.startoffset }
  let call : RegnexecCall :=
    { preg := ud.r, str := argE.text, len := size_sub_int argE.textlen argE.startoffset,
      nmatch := int_to_size (NSUB ud + 1), pmatch := ud.match_, eflags := argE.eflags }
  let res := E.regnexec call
  { code := res.code, argE := argE, ud := after_exec ud call.nmatch res.written, call := call }

def gsub_exec (E : Externals) (ud : TPosix) (argE : TArgExec) (st : Int) : ExecOutcome :=
  let argE :=
    if st > 0 then { argE with eflags := Int.lor argE.eflags E.REG_NOTBOL }
    else argE
  let call : RegnexecCall :=
    { preg := ud.r, str := argE.text.add st, len := size_sub_int argE.textlen st,
      nmatch := int_to_size (NSUB ud + 1), pmatch := ud.match_, eflags := argE.eflags }
  let res := E.regnexec call
  { code := res.code, argE := argE, ud := after_exec ud call.nmatch res.written, call := call }

def split_exec (E : Externals) (ud : TPosix) (argE : TArgExec) (offset : Int) : ExecOutcome :=
  let argE :=
    if offset > 0 then { argE with eflags := Int.lor argE.eflags E.REG_NOTBOL }
    else argE
  let call : RegnexecCall :=
    { preg := ud.r, str := argE.text.add offset, len := size_sub_int argE.textlen offset,
      nmatch := int_to_size (NSUB ud + 1), pmatch := ud.match_, eflags := argE.eflags }
  let res := E.regnexec call
  { code := res.code, argE := argE, ud := after_exec ud call.nmatch res.written, call := call }

def Ltre_have_backrefs (E : Externals) (args : List LuaValue) : Except String (List LuaValue) :=
  match check_ud (arg args 1) with
  | Except.error e => Except.error e
  | Except.ok ud => Except.ok [LuaValue.boolean (decide (E.tre_have_backrefs ud.r ≠ 0))]

def Ltre_have_approx (E : Externals) (args : List LuaValue) : Except String (List LuaValue) :=
  match check_ud (arg args 1) with
  | Except.error e => Except.error e
  | Except.ok ud => Except.ok [LuaValue.boolean (decide (E.tre_have_approx ud.r ≠ 0))]

/-- The pattern object together with a count of the release calls made on its
behalf: `regfree (&ud->r)` and `free (ud->match)`. -/
structure GcState where
  ud : TPosix
  regfree_calls : Nat
  free_calls : Nat
  deriving DecidableEq, Repr

/-- The `__gc` metamethod, on the userdata that `check_ud` returned. -/
def Ltre_gc (s : GcState) : GcState :=
  if s.ud.freed = 0 then           /- precaution against manual __gc calling -/
    { ud := { s.ud with freed := 1 },
      regfree_calls := s.regfree_calls + 1,
      free_calls := if s.ud.match_.isSome then s.free_calls + 1 else s.free_calls }
  else s

/-- The pattern object right after a successful `compile_regex`: nothing has
been released yet. -/
def fresh (ud : TPosix) : GcState := { ud := ud, regfree_calls := 0, free_calls := 0 }

/-! ## A concrete environment

The externals as they behave for the compiled pattern `.` (one arbitrary
character, no capture group, no approximate-matching syntax), with the constant
values of the TRE header and the `get_startoffset` of `common.c`.  It serves to
evaluate the functions above on concrete calls. -/

/-- The engine search for the pattern `.`: the first character, when there is one. -/
def dot_reganexec (c : ReganexecCall) : ReganexecResult :=
  if 0 < c.len then { code := 0, written := [⟨0, 1⟩], cost := 0, num_ins := 0, num_del := 0, num_subst := 0 }
  else { code := 1, written := [], cost := 0, num_ins := 0, num_del := 0, num_subst := 0 }

/-- The exact engine search for the pattern `.`. -/
def dot_regnexec (c : RegnexecCall) : RegnexecResult :=
  if 0 < c.len then { code := 0, written := [⟨0, 1⟩] } else { code := 1, written := [] }

/-- The start offset of `common.c`: 1-based, negative values count from the end. -/
def dot_get_startoffset (v : LuaValue) (len : Nat) : Except String Int :=
  match v with
  | LuaValue.nil => Except.ok 0
  | LuaValue.number n =>
    if n > 0 then Except.ok (n - 1)
    else if n < 0 then (if n + len < 0 then Except.ok 0 else Except.ok (n + len))
    else Except.ok 0
  | _ => Except.error "number expected"

/-- The environment for the pattern `.`. -/
def dotE : Externals :=
  { REG_NOMATCH := 1
    REG_NOTBOL := 1
    REG_NOSUB := 8
    regncomp := fun _ _ _ => (0, ⟨0, 1⟩)
    regnexec := dot_regnexec
    reganexec := dot_reganexec
    regerror := fun _ _ => "engine error"
    tre_have_backrefs := fun _ => 0
    tre_have_approx := fun _ => 0
    Lmalloc := fun _ => Except.ok ()
    get_startoffset := dot_get_startoffset
    push_substring_table := fun _ _ => ⟨[], []⟩
    push_offset_table := fun _ _ => ⟨[], []⟩
    str2number := fun _ => none
    number2str := fun _ => [] }

/-- The userdata of the compiled pattern `.`. -/
def dotUd : TPosix := { r := ⟨0, 1⟩, match_ := some [⟨0, 0⟩], freed := 0 }

/-! ## Arithmetic of the conversions -/

theorem size_to_int_le (n : Nat) : size_to_int n ≤ (n : Int) := by
  unfold size_to_int
  have h := Nat.mod_le n (2 ^ 32)
  split <;> omega

theorem size_to_int_le_max (n : Nat) : size_to_int n ≤ 2 ^ 31 - 1 := by
  unfold size_to_int
  have h := Nat.mod_lt n (show 2 ^ 32 > 0 by norm_num)
  split <;> omega

theorem size_to_int_of_le (n : Nat) (h : (n : Int) ≤ INT_MAX) : size_to_int n = (n : Int) := by
  unfold size_to_int
  unfold INT_MAX at h
  have h1 : n % 2 ^ 32 = n := Nat.mod_eq_of_lt (by omega)
  rw [h1]
  split <;> omega

theorem int_to_size_of_nat (n : Nat) (h : n < SIZE_MOD) : int_to_size (n : Int) = n := by
  unfold int_to_size
  rw [Int.emod_eq_of_lt (by omega) (by exact_mod_cast h)]
  simp

theorem size_sub_int_of_le (n : Nat) (i : Int) (h0 : 0 ≤ i) (hle : i ≤ (n : Int))
    (hn : n < SIZE_MOD) : size_sub_int n i = n - i.toNat := by
  unfold size_sub_int
  have h1 : (n : Int) - i = ((n - i.toNat : Nat) : Int) := by omega
  rw [h1]
  exact int_to_size_of_nat _ (by omega)

/-! ## The offset guard of generic_atfind -/

theorem atfind_guard_fires (E : Externals) (args : List LuaValue) (tfind : Int)
    (argE : TArgExec) (ud : TPosix) (argP : regaparams_t)
    (hargs : checkarg_atfind E args = Except.ok (argE, ud, argP))
    (hguard : argE.startoffset > size_to_int argE.textlen) :
    (generic_atfind E args tfind).ret = Except.ok [LuaValue.nil] ∧
    (generic_atfind E args tfind).calls = [] := by
  unfold generic_atfind
  rw [hargs]
  simp only [hguard, if_true, and_self]

/-- C1: when the arguments are accepted and the start offset is greater than the
length of the text, `generic_atfind` (behind `aexec` and `atfind`) returns the
single value `nil`, raises no error and performs no engine search. -/
theorem generic_atfind_offset_guard (E : Externals) (args : List LuaValue) (tfind : Int)
    (argE : TArgExec) (ud : TPosix) (argP : regaparams_t)
    (hargs : checkarg_atfind E args = Except.ok (argE, ud, argP))
    (hgt : argE.startoffset > (argE.textlen : Int)) :
    (generic_atfind E args tfind).ret = Except.ok [LuaValue.nil] ∧
    (generic_atfind E args tfind).calls = [] :=
  atfind_guard_fires E args tfind argE ud argP hargs
    (lt_of_le_of_lt (size_to_int_le argE.textlen) hgt)

/-- Witness of C1: the pattern `.` on the text `ab` from the 1-based start 5. -/
theorem generic_atfind_offset_guard_witness :
    (generic_atfind dotE
        [LuaValue.userdata dotUd, LuaValue.string ['a', 'b'], LuaValue.table ⟨[], []⟩,
          LuaValue.number 5] 0).ret = Except.ok [LuaValue.nil] ∧
    (generic_atfind dotE
        [LuaValue.userdata dotUd, LuaValue.string ['a', 'b'], LuaValue.table ⟨[], []⟩,
          LuaValue.number 5] 0).calls = [] :=
  generic_atfind_offset_guard dotE _ 0
    { text := ⟨['a', 'b'], 0⟩, textlen := 2, startoffset := 4, eflags := 0 } dotUd
    ⟨0, 0, 0, 0, 0, 0, 0, 0⟩ rfl (by decide)

/-! ## The search performed by generic_atfind -/

/-- The engine call that `generic_atfind` makes once the offset guard is passed. -/
def atfind_call (ud : TPosix) (argE : TArgExec) (argP : regaparams_t) : ReganexecCall :=
  { preg := ud.r, str := argE.text.add argE.startoffset,
    len := size_sub_int argE.textlen argE.startoffset,
    nmatch := int_to_size (NSUB ud + 1), pmatch := ud.match_, params := argP,
    eflags := argE.eflags }

/-- The userdata once that engine call has returned. -/
def atfind_ud (E : Externals) (ud : TPosix) (argE : TArgExec) (argP : regaparams_t) : TPosix :=
  after_exec ud (int_to_size (NSUB ud + 1)) (E.reganexec (atfind_call ud argE argP)).written

/-- The result table of a successful `generic_atfind`. -/
def atfind_table (E : Externals) (ud : TPosix) (argE : TArgExec) (argP : regaparams_t)
    (tfind : Int) : LuaTable :=
  set_int_field (set_int_field (set_int_field (set_int_field
    (if tfind ≠ 0 then E.push_substring_table (atfind_ud E ud argE argP)
        (argE.text.add argE.startoffset)
      else E.push_offset_table (atfind_ud E ud argE argP) argE.startoffset)
    "cost" (E.reganexec (atfind_call ud argE argP)).cost)
    "num_ins" (E.reganexec (atfind_call ud argE argP)).num_ins)
    "num_del" (E.reganexec (atfind_call ud argE argP)).num_del)
    "num_subst" (E.reganexec (atfind_call ud argE argP)).num_subst

theorem generic_atfind_calls (E : Externals) (args : List LuaValue) (tfind : Int)
    (argE : TArgExec) (ud : TPosix) (argP : regaparams_t)
    (hargs : checkarg_atfind E args = Except.ok (argE, ud, argP))
    (hguard : ¬ argE.startoffset > size_to_int argE.textlen) :
    (generic_atfind E args tfind).calls = [atfind_call ud argE argP] := by
  unfold generic_atfind
  rw [hargs]
  simp only [hguard, if_false]
  split
  · rfl
  · split <;> rfl

theorem generic_atfind_ret (E : Externals) (args : List LuaValue) (tfind : Int)
    (argE : TArgExec) (ud : TPosix) (argP : regaparams_t)
    (hargs : checkarg_atfind E args = Except.ok (argE, ud, argP))
    (hguard : ¬ argE.startoffset > size_to_int argE.textlen) :
    (generic_atfind E args tfind).ret =
      if (E.reganexec (atfind_call ud argE argP)).code = 0 then
        Except.ok [LuaValue.number
            (argE.startoffset + SUB_BEG (atfind_ud E ud argE argP) 0 + 1),
          LuaValue.number (argE.startoffset + SUB_END (atfind_ud E ud argE argP) 0),
          LuaValue.table (atfind_table E ud argE argP tfind)]
      else if (E.reganexec (atfind_call ud argE argP)).code = E.REG_NOMATCH then
        Except.ok [LuaValue.nil]
      else Except.error (E.regerror (E.reganexec (atfind_call ud argE argP)).code ud.r) := by
  unfold generic_atfind
  rw [hargs]
  simp only [hguard, if_false, atfind_call, atfind_ud, atfind_table, IS_MATCH, CODE_NOMATCH,
    beq_iff_eq, PUSH_OFFSETS, PUSH_START, PUSH_END, generate_error]
  split_ifs <;> simp [after_exec]

/-- The arguments `(r, "ab", {})` of a call on the pattern `.`. -/
def dotArgs : List LuaValue :=
  [LuaValue.userdata dotUd, LuaValue.string ['a', 'b'], LuaValue.table ⟨[], []⟩]

/-- What `checkarg_atfind` makes of `dotArgs`. -/
def dotArgE : TArgExec :=
  { text := ⟨['a', 'b'], 0⟩, textlen := 2, startoffset := 0, eflags := 0 }

/-! ## Outcomes of generic_atfind -/

/-- A subject of 2^31 bytes, all `a`. -/
def longText : List Char := List.replicate 2147483648 'a'

/-- The arguments `(r, s, {})` for the subject `longText`. -/
def longArgs : List LuaValue :=
  [LuaValue.userdata dotUd, LuaValue.string longText, LuaValue.table ⟨[], []⟩]

/-- What `checkarg_atfind` makes of `longArgs`. -/
def longArgE : TArgExec :=
  { text := ⟨longText, 0⟩, textlen := 2147483648, startoffset := 0, eflags := 0 }

theorem longText_length : longText.length = 2147483648 :=
  List.length_replicate _ _

theorem checkarg_atfind_long :
    checkarg_atfind dotE longArgs = Except.ok (longArgE, dotUd, ⟨0, 0, 0, 0, 0, 0, 0, 0⟩) := by
  have h : checkarg_atfind dotE longArgs =
      Except.ok (TArgExec.mk ⟨longText, 0⟩ longText.length 0 0, dotUd,
        ⟨0, 0, 0, 0, 0, 0, 0, 0⟩) := rfl
  rw [longText_length] at h
  exact h

/-- C2, refuted as stated: for the pattern `.` on a subject of 2^31 bytes from
start offset 0, the start offset is at most the text length and the engine
search would return code 0; yet `(int) textlen` is negative, the guard fires,
and `aexec` returns the single value `nil` without any engine search. -/
theorem generic_atfind_long_subject_no_search :
    checkarg_atfind dotE longArgs = Except.ok (longArgE, dotUd, ⟨0, 0, 0, 0, 0, 0, 0, 0⟩) ∧
    longArgE.startoffset ≤ (longArgE.textlen : Int) ∧
    size_to_int longArgE.textlen = -2147483648 ∧
    (dotE.reganexec (atfind_call dotUd longArgE ⟨0, 0, 0, 0, 0, 0, 0, 0⟩)).code = 0 ∧
    (generic_atfind dotE longArgs 0).ret = Except.ok [LuaValue.nil] ∧
    (generic_atfind dotE longArgs 0).calls = [] :=
  ⟨checkarg_atfind_long, by decide, by decide, by decide,
    atfind_guard_fires dotE longArgs 0 longArgE dotUd _ checkarg_atfind_long (by decide)⟩

/-- C2, amended: when the arguments are accepted and the start offset is at most
`(int) textlen`, the text length converted to `int` as the guard compares it
(the text length itself whenever it is at most `INT_MAX`), exactly one engine
search is made and its return code alone decides the outcome: code 0 gives the
triple start, end, table; code `REG_NOMATCH` (a code other than 0) gives the
single value `nil`; every other code raises an error.  Each of the three
outcomes occurs for its codes only. -/
theorem generic_atfind_code_decides (E : Externals) (args : List LuaValue) (tfind : Int)
    (argE : TArgExec) (ud : TPosix) (argP : regaparams_t)
    (hargs : checkarg_atfind E args = Except.ok (argE, ud, argP))
    (hle : argE.startoffset ≤ size_to_int argE.textlen)
    (hnm : E.REG_NOMATCH ≠ 0) :
    (generic_atfind E args tfind).calls = [atfind_call ud argE argP] ∧
    ((E.reganexec (atfind_call ud argE argP)).code = 0 ↔
      ∃ s e t, (generic_atfind E args tfind).ret =
        Except.ok [LuaValue.number s, LuaValue.number e, LuaValue.table t]) ∧
    ((E.reganexec (atfind_call ud argE argP)).code = E.REG_NOMATCH ↔
      (generic_atfind E args tfind).ret = Except.ok [LuaValue.nil]) ∧
    (((E.reganexec (atfind_call ud argE argP)).code ≠ 0 ∧
        (E.reganexec (atfind_call ud argE argP)).code ≠ E.REG_NOMATCH) ↔
      ∃ msg, (generic_atfind E args tfind).ret = Except.error msg) ∧
    ((argE.textlen : Int) ≤ INT_MAX → size_to_int argE.textlen = (argE.textlen : Int)) := by
  have hguard : ¬ argE.startoffset > size_to_int argE.textlen := not_lt.mpr hle
  refine ⟨generic_atfind_calls E args tfind argE ud argP hargs hguard, ?_⟩
  rw [generic_atfind_ret E args tfind argE ud argP hargs hguard]
  by_cases h0 : (E.reganexec (atfind_call ud argE argP)).code = 0
  · have h1 : ¬ (E.reganexec (atfind_call ud argE argP)).code = E.REG_NOMATCH := by
      rw [h0]
      exact fun h => hnm h.symm
    have hnm2 : ¬ (0 = E.REG_NOMATCH) := fun h => hnm h.symm
    simp [h0, hnm, hnm2]
    exact size_to_int_of_le _
  · by_cases h1 : (E.reganexec (atfind_call ud argE argP)).code = E.REG_NOMATCH
    · simp [h1, hnm]
      exact size_to_int_of_le _
    · simp [h0, h1]
      exact size_to_int_of_le _

/-- Witness of the amended C2: the pattern `.` on the text `ab` from the start. -/
theorem generic_atfind_code_decides_witness :
    (generic_atfind dotE dotArgs 0).calls = [atfind_call dotUd dotArgE ⟨0, 0, 0, 0, 0, 0, 0, 0⟩] ∧
    ((dotE.reganexec (atfind_call dotUd dotArgE ⟨0, 0, 0, 0, 0, 0, 0, 0⟩)).code = 0 ↔
      ∃ s e t, (generic_atfind dotE dotArgs 0).ret =
        Except.ok [LuaValue.number s, LuaValue.number e, LuaValue.table t]) ∧
    ((dotE.reganexec (atfind_call dotUd dotArgE ⟨0, 0, 0, 0, 0, 0, 0, 0⟩)).code = dotE.REG_NOMATCH ↔
      (generic_atfind dotE dotArgs 0).ret = Except.ok [LuaValue.nil]) ∧
    (((dotE.reganexec (atfind_call dotUd dotArgE ⟨0, 0, 0, 0, 0, 0, 0, 0⟩)).code ≠ 0 ∧
        (dotE.reganexec (atfind_call dotUd dotArgE ⟨0, 0, 0, 0, 0, 0, 0, 0⟩)).code ≠ dotE.REG_NOMATCH) ↔
      ∃ msg, (generic_atfind dotE dotArgs 0).ret = Except.error msg) ∧
    ((dotArgE.textlen : Int) ≤ INT_MAX → size_to_int dotArgE.textlen = (dotArgE.textlen : Int)) :=
  generic_atfind_code_decides dotE dotArgs 0 dotArgE dotUd ⟨0, 0, 0, 0, 0, 0, 0, 0⟩ rfl
    (by decide) (by decide)

/-- C3, refuted as stated: for the pattern `.` on the text `ab` from start offset
0 the engine reports the overall match at the internal offsets 0 and 1, and
`aexec` returns the start 1, which is not 0 + 0. -/
theorem generic_atfind_start_not_zero_based :
    checkarg_atfind dotE dotArgs = Except.ok (dotArgE, dotUd, ⟨0, 0, 0, 0, 0, 0, 0, 0⟩) ∧
    dotArgE.startoffset = 0 ∧
    (dotE.reganexec (atfind_call dotUd dotArgE ⟨0, 0, 0, 0, 0, 0, 0, 0⟩)).code = 0 ∧
    (dotE.reganexec (atfind_call dotUd dotArgE ⟨0, 0, 0, 0, 0, 0, 0, 0⟩)).written = [⟨0, 1⟩] ∧
    (generic_atfind dotE dotArgs 0).ret =
      Except.ok [LuaValue.number 1, LuaValue.number 1,
        LuaValue.table ⟨[], [("num_subst", LuaScalar.number 0), ("num_del", LuaScalar.number 0),
          ("num_ins", LuaScalar.number 0), ("cost", LuaScalar.number 0)]⟩] ∧
    (∀ t, (generic_atfind dotE dotArgs 0).ret ≠
      Except.ok [LuaValue.number (0 + 0), LuaValue.number (0 + 1), LuaValue.table t]) := by
  have hr : (generic_atfind dotE dotArgs 0).ret =
      Except.ok [LuaValue.number 1, LuaValue.number 1,
        LuaValue.table ⟨[], [("num_subst", LuaScalar.number 0), ("num_del", LuaScalar.number 0),
          ("num_ins", LuaScalar.number 0), ("cost", LuaScalar.number 0)]⟩] := rfl
  refine ⟨rfl, rfl, rfl, rfl, hr, ?_⟩
  intro t h
  rw [hr] at h
  simp at h

/-- C3, amended: for every call of `generic_atfind` that returns a match triple,
started at offset o, where the engine (run on text + o) left the internal
offsets so and eo in slot 0, the returned start is o + so + 1 (1-based) and the
returned end is o + eo. -/
theorem generic_atfind_offsets (E : Externals) (args : List LuaValue) (tfind : Int)
    (argE : TArgExec) (ud : TPosix) (argP : regaparams_t) (a b c : LuaValue)
    (hargs : checkarg_atfind E args = Except.ok (argE, ud, argP))
    (hret : (generic_atfind E args tfind).ret = Except.ok [a, b, c]) :
    (generic_atfind E args tfind).calls = [atfind_call ud argE argP] ∧
    (atfind_call ud argE argP).str = argE.text.add argE.startoffset ∧
    (E.reganexec (atfind_call ud argE argP)).code = 0 ∧
    a = LuaValue.number (argE.startoffset + SUB_BEG (atfind_ud E ud argE argP) 0 + 1) ∧
    b = LuaValue.number (argE.startoffset + SUB_END (atfind_ud E ud argE argP) 0) := by
  by_cases hguard : argE.startoffset > size_to_int argE.textlen
  · have h := (atfind_guard_fires E args tfind argE ud argP hargs hguard).1
    rw [h] at hret
    simp at hret
  · refine ⟨generic_atfind_calls E args tfind argE ud argP hargs hguard, rfl, ?_⟩
    rw [generic_atfind_ret E args tfind argE ud argP hargs hguard] at hret
    by_cases h0 : (E.reganexec (atfind_call ud argE argP)).code = 0
    · rw [if_pos h0] at hret
      simp at hret
      exact ⟨h0, hret.1.symm, hret.2.1.symm⟩
    · by_cases h1 : (E.reganexec (atfind_call ud argE argP)).code = E.REG_NOMATCH
      · rw [if_neg h0, if_pos h1] at hret
        simp at hret
      · rw [if_neg h0, if_neg h1] at hret
        simp at hret

/-- Witness of the amended C3: the pattern `.` on the text `ab`. -/
theorem generic_atfind_offsets_witness :
    (generic_atfind dotE dotArgs 0).calls = [atfind_call dotUd dotArgE ⟨0, 0, 0, 0, 0, 0, 0, 0⟩] ∧
    (atfind_call dotUd dotArgE ⟨0, 0, 0, 0, 0, 0, 0, 0⟩).str = dotArgE.text.add dotArgE.startoffset ∧
    (dotE.reganexec (atfind_call dotUd dotArgE ⟨0, 0, 0, 0, 0, 0, 0, 0⟩)).code = 0 ∧
    LuaValue.number 1 = LuaValue.number (dotArgE.startoffset +
      SUB_BEG (atfind_ud dotE dotUd dotArgE ⟨0, 0, 0, 0, 0, 0, 0, 0⟩) 0 + 1) ∧
    LuaValue.number 1 = LuaValue.number (dotArgE.startoffset +
      SUB_END (atfind_ud dotE dotUd dotArgE ⟨0, 0, 0, 0, 0, 0, 0, 0⟩) 0) :=
  generic_atfind_offsets dotE dotArgs 0 dotArgE dotUd ⟨0, 0, 0, 0, 0, 0, 0, 0⟩
    (LuaValue.number 1) (LuaValue.number 1)
    (LuaValue.table ⟨[], [("num_subst", LuaScalar.number 0), ("num_del", LuaScalar.number 0),
      ("num_ins", LuaScalar.number 0), ("cost", LuaScalar.number 0)]⟩) rfl rfl

/-! ## Approximate support is not consulted -/

/-- C4, refuted as stated: the pattern `.` has no approximate support
(`have_approx` returns false), yet `aexec` and `atfind` on the text `ab` run the
search and return a match instead of raising an error. -/
theorem aexec_without_approx_support_matches :
    Ltre_have_approx dotE [LuaValue.userdata dotUd] = Except.ok [LuaValue.boolean false] ∧
    (Ltre_aexec dotE dotArgs).calls = [atfind_call dotUd dotArgE ⟨0, 0, 0, 0, 0, 0, 0, 0⟩] ∧
    (Ltre_aexec dotE dotArgs).ret =
      Except.ok [LuaValue.number 1, LuaValue.number 1,
        LuaValue.table ⟨[], [("num_subst", LuaScalar.number 0), ("num_del", LuaScalar.number 0),
          ("num_ins", LuaScalar.number 0), ("cost", LuaScalar.number 0)]⟩] ∧
    (Ltre_atfind dotE dotArgs).ret =
      Except.ok [LuaValue.number 1, LuaValue.number 1,
        LuaValue.table ⟨[], [("num_subst", LuaScalar.number 0), ("num_del", LuaScalar.number 0),
          ("num_ins", LuaScalar.number 0), ("cost", LuaScalar.number 0)]⟩] :=
  ⟨rfl, rfl, rfl, rfl⟩

/-- C4, amended: `generic_atfind` does not consult `tre_have_approx`.  For a
pattern without approximate support, on accepted arguments: when the start
offset is greater than `(int) textlen` the call returns `nil` without a search;
otherwise the search is run, and the call returns the match triple when the
engine returns code 0, returns `nil` when the engine returns a code other than 0
that is `REG_NOMATCH`, and raises an error exactly when the engine returns a
code other than 0 and `REG_NOMATCH`.  Replacing the predicate `tre_have_approx`
by any other leaves the outcome unchanged. -/
theorem generic_atfind_without_approx_support (E : Externals) (args : List LuaValue)
    (tfind : Int) (argE : TArgExec) (ud : TPosix) (argP : regaparams_t)
    (hargs : checkarg_atfind E args = Except.ok (argE, ud, argP))
    (_hno : Ltre_have_approx E [LuaValue.userdata ud] = Except.ok [LuaValue.boolean false]) :
    (argE.startoffset > size_to_int argE.textlen →
      (generic_atfind E args tfind).ret = Except.ok [LuaValue.nil] ∧
      (generic_atfind E args tfind).calls = []) ∧
    (¬ argE.startoffset > size_to_int argE.textlen →
      (generic_atfind E args tfind).calls = [atfind_call ud argE argP] ∧
      ((E.reganexec (atfind_call ud argE argP)).code = 0 →
        ∃ s e t, (generic_atfind E args tfind).ret =
          Except.ok [LuaValue.number s, LuaValue.number e, LuaValue.table t]) ∧
      ((E.reganexec (atfind_call ud argE argP)).code ≠ 0 →
        (E.reganexec (atfind_call ud argE argP)).code = E.REG_NOMATCH →
        (generic_atfind E args tfind).ret = Except.ok [LuaValue.nil]) ∧
      ((∃ msg, (generic_atfind E args tfind).ret = Except.error msg) ↔
        ((E.reganexec (atfind_call ud argE argP)).code ≠ 0 ∧
          (E.reganexec (atfind_call ud argE argP)).code ≠ E.REG_NOMATCH))) ∧
    (∀ f : regex_t → Int,
      (generic_atfind { E with tre_have_approx := f } args tfind).ret =
          (generic_atfind E args tfind).ret ∧
      (generic_atfind { E with tre_have_approx := f } args tfind).calls =
          (generic_atfind E args tfind).calls) := by
  refine ⟨atfind_guard_fires E args tfind argE ud argP hargs, ?_, fun f => ⟨rfl, rfl⟩⟩
  intro hguard
  refine ⟨generic_atfind_calls E args tfind argE ud argP hargs hguard, ?_⟩
  rw [generic_atfind_ret E args tfind argE ud argP hargs hguard]
  by_cases h0 : (E.reganexec (atfind_call ud argE argP)).code = 0
  · rw [if_pos h0]
    simp [h0]
  · by_cases h1 : (E.reganexec (atfind_call ud argE argP)).code = E.REG_NOMATCH
    · rw [if_neg h0, if_pos h1]
      have h2 : ¬ E.REG_NOMATCH = 0 := by
        rw [← h1]
        exact h0
      simp [h1, h2]
    · rw [if_neg h0, if_neg h1]
      simp [h0, h1]

/-- Witness of the amended C4: the pattern `.` on the text `ab`; the search is
run and returns code 0, and the call returns a match triple. -/
theorem generic_atfind_without_approx_support_witness :
    (generic_atfind dotE dotArgs 0).calls = [atfind_call dotUd dotArgE ⟨0, 0, 0, 0, 0, 0, 0, 0⟩] ∧
    ∃ s e t, (generic_atfind dotE dotArgs 0).ret =
      Except.ok [LuaValue.number s, LuaValue.number e, LuaValue.table t] :=
  ⟨((generic_atfind_without_approx_support dotE dotArgs 0 dotArgE dotUd
      ⟨0, 0, 0, 0, 0, 0, 0, 0⟩ rfl rfl).2.1 (by decide)).1,
    ((generic_atfind_without_approx_support dotE dotArgs 0 dotArgE dotUd
      ⟨0, 0, 0, 0, 0, 0, 0, 0⟩ rfl rfl).2.1 (by decide)).2.1 rfl⟩

/-! ## The cost model handed to the engine -/

/-- A cost model that sets `max_cost` and `max_err` and leaves the rest unset. -/
def budgetTable : LuaTable :=
  ⟨[], [("max_cost", LuaScalar.number 2), ("max_err", LuaScalar.number 2)]⟩

/-- The arguments `(r, "ab", {max_cost = 2, max_err = 2})`. -/
def budgetArgs : List LuaValue :=
  [LuaValue.userdata dotUd, LuaValue.string ['a', 'b'], LuaValue.table budgetTable]

/-- C5, refuted as stated: with the cost model `{max_cost = 2, max_err = 2}` the
fields `max_ins`, `max_del` and `max_subst` are unset, and the engine is handed
the ceiling 0 for each of the three. -/
theorem aexec_unset_ceilings_are_zero :
    lua_getfield budgetTable "max_ins" = LuaScalar.nil ∧
    lua_getfield budgetTable "max_del" = LuaScalar.nil ∧
    lua_getfield budgetTable "max_subst" = LuaScalar.nil ∧
    ∃ call, (Ltre_aexec dotE budgetArgs).calls = [call] ∧
      call.params.max_cost = 2 ∧ call.params.max_err = 2 ∧
      call.params.max_ins = 0 ∧ call.params.max_del = 0 ∧ call.params.max_subst = 0 :=
  ⟨rfl, rfl, rfl, atfind_call dotUd dotArgE ⟨0, 0, 0, 2, 0, 0, 0, 2⟩, rfl, rfl, rfl, rfl, rfl, rfl⟩

theorem get_int_field_unset (E : Externals) (t : LuaTable) (f : String)
    (h : lua_getfield t f = LuaScalar.nil ∨ lua_getfield t f = LuaScalar.number 0) :
    get_int_field E t f = 0 := by
  unfold get_int_field
  rcases h with h | h <;> rw [h] <;> simp [lua_tointeger, to_int]

theorem checkarg_atfind_params (E : Externals) (args : List LuaValue)
    (argE : TArgExec) (ud : TPosix) (argP : regaparams_t) (t : LuaTable)
    (hargs : checkarg_atfind E args = Except.ok (argE, ud, argP))
    (ht : arg args 3 = LuaValue.table t) :
    argP =
      { cost_ins := get_int_field E t "cost_ins"
        cost_del := get_int_field E t "cost_del"
        cost_subst := get_int_field E t "cost_subst"
        max_cost := get_int_field E t "max_cost"
        max_ins := get_int_field E t "max_ins"
        max_del := get_int_field E t "max_del"
        max_subst := get_int_field E t "max_subst"
        max_err := get_int_field E t "max_err" } := by
  unfold checkarg_atfind at hargs
  rw [ht] at hargs
  simp only [checkarg_regaparams] at hargs
  split at hargs
  · simp at hargs
  · split at hargs
    · simp at hargs
    · split at hargs
      · simp at hargs
      · split at hargs
        · simp at hargs
        · simp only [Except.ok.injEq, Prod.mk.injEq] at hargs
          exact hargs.2.2.symm

/-- C5, amended: the cost-model table is read field by field with
`lua_tointeger`, converted to `int`, and handed to the engine as read.  Every
field the caller leaves unset or zero, the ceilings `max_ins`, `max_del`,
`max_subst`, `max_cost` and `max_err` included, reaches the engine as 0; no
default is put in its place. -/
theorem generic_atfind_params (E : Externals) (args : List LuaValue) (tfind : Int)
    (argE : TArgExec) (ud : TPosix) (argP : regaparams_t) (t : LuaTable)
    (hargs : checkarg_atfind E args = Except.ok (argE, ud, argP))
    (ht : arg args 3 = LuaValue.table t)
    (hguard : ¬ argE.startoffset > size_to_int argE.textlen) :
    (∃ call, (generic_atfind E args tfind).calls = [call] ∧
      call.params =
        { cost_ins := get_int_field E t "cost_ins"
          cost_del := get_int_field E t "cost_del"
          cost_subst := get_int_field E t "cost_subst"
          max_cost := get_int_field E t "max_cost"
          max_ins := get_int_field E t "max_ins"
          max_del := get_int_field E t "max_del"
          max_subst := get_int_field E t "max_subst"
          max_err := get_int_field E t "max_err" }) ∧
    (∀ f : String, lua_getfield t f = LuaScalar.nil ∨ lua_getfield t f = LuaScalar.number 0 →
      get_int_field E t f = 0) :=
  ⟨⟨atfind_call ud argE argP, generic_atfind_calls E args tfind argE ud argP hargs hguard,
      checkarg_atfind_params E args argE ud argP t hargs ht⟩,
    fun f h => get_int_field_unset E t f h⟩

/-- Witness of the amended C5: the cost model `{max_cost = 2, max_err = 2}`. -/
theorem generic_atfind_params_witness :
    (∃ call, (generic_atfind dotE budgetArgs 0).calls = [call] ∧
      call.params =
        { cost_ins := get_int_field dotE budgetTable "cost_ins"
          cost_del := get_int_field dotE budgetTable "cost_del"
          cost_subst := get_int_field dotE budgetTable "cost_subst"
          max_cost := get_int_field dotE budgetTable "max_cost"
          max_ins := get_int_field dotE budgetTable "max_ins"
          max_del := get_int_field dotE budgetTable "max_del"
          max_subst := get_int_field dotE budgetTable "max_subst"
          max_err := get_int_field dotE budgetTable "max_err" }) ∧
    (∀ f : String, lua_getfield budgetTable f = LuaScalar.nil ∨
        lua_getfield budgetTable f = LuaScalar.number 0 →
      get_int_field dotE budgetTable f = 0) :=
  generic_atfind_params dotE budgetArgs 0 dotArgE dotUd ⟨0, 0, 0, 2, 0, 0, 0, 2⟩ budgetTable
    rfl rfl (by decide)

/-! ## The result table -/

theorem lua_getfield_setfield_same (t : LuaTable) (f : String) (v : LuaScalar) :
    lua_getfield (lua_setfield t f v) f = v := by
  simp [lua_getfield, lua_setfield]

theorem find_filter_other (d : List (String × LuaScalar)) (f g : String) (h : f ≠ g) :
    (d.filter (fun p => p.1 != g)).find? (fun p => p.1 == f) = d.find? (fun p => p.1 == f) := by
  induction d with
  | nil => rfl
  | cons x xs ih =>
    by_cases hx : x.1 = g
    · have hxf : ¬ x.1 = f := fun e => h (e.symm.trans hx)
      have h1 : (x.1 != g) = false := by simp [hx]
      have h2 : (x.1 == f) = false := by simpa using hxf
      rw [List.filter_cons, List.find?_cons, h1, h2]
      simpa using ih
    · have h1 : (x.1 != g) = true := by simpa using hx
      rw [List.filter_cons, h1]
      simp only [if_true, List.find?_cons]
      rw [ih]

theorem lua_getfield_setfield_other (t : LuaTable) (f g : String) (v : LuaScalar)
    (h : f ≠ g) : lua_getfield (lua_setfield t g v) f = lua_getfield t f := by
  have hgf : (g == f) = false := by simpa using fun e : g = f => h e.symm
  unfold lua_getfield lua_setfield
  simp only [List.find?_cons, hgf]
  rw [find_filter_other t.dict f g h]

theorem atfind_table_fields (E : Externals) (ud : TPosix) (argE : TArgExec)
    (argP : regaparams_t) (tfind : Int) :
    lua_getfield (atfind_table E ud argE argP tfind) "cost" =
      LuaScalar.number (E.reganexec (atfind_call ud argE argP)).cost ∧
    lua_getfield (atfind_table E ud argE argP tfind) "num_ins" =
      LuaScalar.number (E.reganexec (atfind_call ud argE argP)).num_ins ∧
    lua_getfield (atfind_table E ud argE argP tfind) "num_del" =
      LuaScalar.number (E.reganexec (atfind_call ud argE argP)).num_del ∧
    lua_getfield (atfind_table E ud argE argP tfind) "num_subst" =
      LuaScalar.number (E.reganexec (atfind_call ud argE argP)).num_subst := by
  unfold atfind_table set_int_field
  refine ⟨?_, ?_, ?_, ?_⟩
  · rw [lua_getfield_setfield_other _ _ _ _ (by decide),
      lua_getfield_setfield_other _ _ _ _ (by decide),
      lua_getfield_setfield_other _ _ _ _ (by decide), lua_getfield_setfield_same]
  · rw [lua_getfield_setfield_other _ _ _ _ (by decide),
      lua_getfield_setfield_other _ _ _ _ (by decide), lua_getfield_setfield_same]
  · rw [lua_getfield_setfield_other _ _ _ _ (by decide), lua_getfield_setfield_same]
  · rw [lua_getfield_setfield_same]

/-- C6: on accepted arguments, whenever the search is run and the engine returns
code 0 (for `aexec`, tfind = 0, and for `atfind`, tfind = 1, alike) the third
returned value is a table whose fields `cost`, `num_ins`, `num_del` and
`num_subst` are the numbers the engine search of this call wrote, field for
field; on every other outcome the call returns the single value `nil` or raises
an error, so that no table and none of the four fields is produced. -/
theorem generic_atfind_cost_fields (E : Externals) (args : List LuaValue) (tfind : Int)
    (argE : TArgExec) (ud : TPosix) (argP : regaparams_t)
    (hargs : checkarg_atfind E args = Except.ok (argE, ud, argP)) :
    ((¬ argE.startoffset > size_to_int argE.textlen ∧
        (E.reganexec (atfind_call ud argE argP)).code = 0) →
      (generic_atfind E args tfind).calls = [atfind_call ud argE argP] ∧
      ∃ a b t, (generic_atfind E args tfind).ret = Except.ok [a, b, LuaValue.table t] ∧
        lua_getfield t "cost" =
          LuaScalar.number (E.reganexec (atfind_call ud argE argP)).cost ∧
        lua_getfield t "num_ins" =
          LuaScalar.number (E.reganexec (atfind_call ud argE argP)).num_ins ∧
        lua_getfield t "num_del" =
          LuaScalar.number (E.reganexec (atfind_call ud argE argP)).num_del ∧
        lua_getfield t "num_subst" =
          LuaScalar.number (E.reganexec (atfind_call ud argE argP)).num_subst) ∧
    (¬ (¬ argE.startoffset > size_to_int argE.textlen ∧
        (E.reganexec (atfind_call ud argE argP)).code = 0) →
      (generic_atfind E args tfind).ret = Except.ok [LuaValue.nil] ∨
      ∃ msg, (generic_atfind E args tfind).ret = Except.error msg) := by
  constructor
  · rintro ⟨hguard, h0⟩
    refine ⟨generic_atfind_calls E args tfind argE ud argP hargs hguard, ?_⟩
    rw [generic_atfind_ret E args tfind argE ud argP hargs hguard, if_pos h0]
    exact ⟨_, _, _, rfl, atfind_table_fields E ud argE argP tfind⟩
  · intro hn
    by_cases hguard : argE.startoffset > size_to_int argE.textlen
    · exact Or.inl (atfind_guard_fires E args tfind argE ud argP hargs hguard).1
    · have h0 : ¬ (E.reganexec (atfind_call ud argE argP)).code = 0 := fun h => hn ⟨hguard, h⟩
      rw [generic_atfind_ret E args tfind argE ud argP hargs hguard, if_neg h0]
      by_cases h1 : (E.reganexec (atfind_call ud argE argP)).code = E.REG_NOMATCH
      · rw [if_pos h1]
        exact Or.inl rfl
      · rw [if_neg h1]
        exact Or.inr ⟨_, rfl⟩

/-- Witness of C6: `atfind` with the pattern `.` on the text `ab`. -/
theorem generic_atfind_cost_fields_witness :
    (generic_atfind dotE dotArgs 1).calls = [atfind_call dotUd dotArgE ⟨0, 0, 0, 0, 0, 0, 0, 0⟩] ∧
    ∃ a b t, (generic_atfind dotE dotArgs 1).ret = Except.ok [a, b, LuaValue.table t] ∧
      lua_getfield t "cost" = LuaScalar.number
        (dotE.reganexec (atfind_call dotUd dotArgE ⟨0, 0, 0, 0, 0, 0, 0, 0⟩)).cost ∧
      lua_getfield t "num_ins" = LuaScalar.number
        (dotE.reganexec (atfind_call dotUd dotArgE ⟨0, 0, 0, 0, 0, 0, 0, 0⟩)).num_ins ∧
      lua_getfield t "num_del" = LuaScalar.number
        (dotE.reganexec (atfind_call dotUd dotArgE ⟨0, 0, 0, 0, 0, 0, 0, 0⟩)).num_del ∧
      lua_getfield t "num_subst" = LuaScalar.number
        (dotE.reganexec (atfind_call dotUd dotArgE ⟨0, 0, 0, 0, 0, 0, 0, 0⟩)).num_subst :=
  (generic_atfind_cost_fields dotE dotArgs 1 dotArgE dotUd ⟨0, 0, 0, 0, 0, 0, 0, 0⟩ rfl).1
    ⟨by decide, rfl⟩

/-! ## Capture groups: unmatched versus empty -/

/-- C7: the value `PUSH_SUB_OR_FALSE` produces for group n is `false` exactly
when the start offset the engine left in slot n is negative.  A group with
0 <= so is reported as the string of length eo - so found at text + so; in
particular a group with 0 <= so = eo is reported as the empty string, never as
`false`. -/
theorem PUSH_SUB_OR_FALSE_unmatched_iff (ud : TPosix) (text : CharPtr) (n : Nat) :
    (PUSH_SUB_OR_FALSE ud text n = LuaValue.boolean false ↔ SUB_BEG ud n < 0) ∧
    (0 ≤ SUB_BEG ud n →
      PUSH_SUB_OR_FALSE ud text n =
        LuaValue.string ((text.add (SUB_BEG ud n)).read
          (int_to_size (SUB_END ud n - SUB_BEG ud n)))) ∧
    (0 ≤ SUB_BEG ud n → SUB_BEG ud n = SUB_END ud n →
      PUSH_SUB_OR_FALSE ud text n = LuaValue.string []) := by
  have hpos : 0 ≤ SUB_BEG ud n →
      PUSH_SUB_OR_FALSE ud text n =
        LuaValue.string ((text.add (SUB_BEG ud n)).read
          (int_to_size (SUB_END ud n - SUB_BEG ud n))) := by
    intro h
    simp [PUSH_SUB_OR_FALSE, SUB_VALID, PUSH_SUB, SUB_LEN, h]
  refine ⟨?_, hpos, ?_⟩
  · constructor
    · intro h
      by_contra hn
      rw [hpos (not_lt.mp hn)] at h
      simp at h
    · intro h
      have h2 : ¬ SUB_BEG ud n ≥ 0 := not_le.mpr h
      simp [PUSH_SUB_OR_FALSE, SUB_VALID, h2]
  · intro h he
    rw [hpos h, ← he]
    simp [int_to_size, CharPtr.read]

/-- Witness of C7: group 1 with the engine offsets so = eo = 1 in the text `ab`. -/
theorem PUSH_SUB_OR_FALSE_unmatched_iff_witness :
    PUSH_SUB_OR_FALSE { r := ⟨1, 1⟩, match_ := some [⟨0, 1⟩, ⟨1, 1⟩], freed := 0 }
      ⟨['a', 'b'], 0⟩ 1 = LuaValue.string [] :=
  (PUSH_SUB_OR_FALSE_unmatched_iff { r := ⟨1, 1⟩, match_ := some [⟨0, 1⟩, ⟨1, 1⟩], freed := 0 }
    ⟨['a', 'b'], 0⟩ 1).2.2 (by decide) (by decide)

/-! ## The iterative exec helpers -/

/-- What an iterative helper entered with `ud` and `argE` at offset `st` does,
`o` being its outcome.  Its return code and the slots written to `ud->match`
are those of `regnexec` applied to the call `o.call`.  In that call the pattern
is `ud->r`; the flags are those of the caller, with `REG_NOTBOL` set when
st > 0; the subject handed over is `text + st` with the length `textlen - st`,
that is, for an offset inside the subject, its part from st to the end. -/
def NotbolSuffixExec (E : Externals) (ud : TPosix) (argE : TArgExec) (st : Int)
    (o : ExecOutcome) : Prop :=
  o.code = (E.regnexec o.call).code ∧
  o.ud = after_exec ud o.call.nmatch (E.regnexec o.call).written ∧
  o.call.preg = ud.r ∧
  (st > 0 → o.call.eflags = Int.lor argE.eflags E.REG_NOTBOL) ∧
  (st = 0 → o.call.eflags = argE.eflags) ∧
  o.call.str = argE.text.add st ∧
  o.call.len = size_sub_int argE.textlen st ∧
  (0 ≤ st → st ≤ (argE.textlen : Int) → argE.textlen < SIZE_MOD →
    o.call.len = argE.textlen - st.toNat ∧
    (argE.text.off = 0 → argE.text.buf.length = argE.textlen →
      o.call.str.read o.call.len = argE.text.buf.drop st.toNat))

theorem read_suffix (buf : List Char) (st : Int) (h0 : 0 ≤ st) :
    (CharPtr.add ⟨buf, 0⟩ st).read (buf.length - st.toNat) = buf.drop st.toNat := by
  simp only [CharPtr.read, CharPtr.add, zero_add, h0, if_true]
  apply List.take_of_length_le
  simp

theorem notbolSuffixExec_intro (E : Externals) (ud : TPosix) (argE : TArgExec) (st : Int)
    (o : ExecOutcome)
    (hcode : o.code = (E.regnexec o.call).code)
    (hud : o.ud = after_exec ud o.call.nmatch (E.regnexec o.call).written)
    (hpreg : o.call.preg = ud.r)
    (hpos : st > 0 → o.call.eflags = Int.lor argE.eflags E.REG_NOTBOL)
    (hnpos : ¬ st > 0 → o.call.eflags = argE.eflags)
    (hstr : o.call.str = argE.text.add st)
    (hl : o.call.len = size_sub_int argE.textlen st) :
    NotbolSuffixExec E ud argE st o := by
  refine ⟨hcode, hud, hpreg, hpos, fun h => hnpos (by omega), hstr, hl, ?_⟩
  intro h0 hle hn
  have hlen : o.call.len = argE.textlen - st.toNat := by
    rw [hl, size_sub_int_of_le _ _ h0 hle hn]
  refine ⟨hlen, ?_⟩
  intro hoff hbuf
  rw [hlen, hstr, ← hbuf]
  have htext : argE.text = ⟨argE.text.buf, 0⟩ := by
    cases h : argE.text with
    | mk b o =>
      rw [h] at hoff
      simp at hoff
      simp [hoff]
  rw [htext]
  exact read_suffix _ _ h0

/-- C8: `gmatch_exec` (at st = `argE->startoffset`), `gsub_exec` and
`split_exec` (at their offset argument st) return what `regnexec` returns when
applied to the pattern, to the flags of the caller with `REG_NOTBOL` set when
st > 0 and exactly the flags of the caller when st = 0, and to the subject
`text + st` of length `textlen - st`; for 0 <= st <= textlen this is the part of
the subject from st to its end. -/
theorem iterative_exec_notbol_suffix (E : Externals) (ud : TPosix) (argE : TArgExec)
    (st : Int) :
    NotbolSuffixExec E ud argE argE.startoffset (gmatch_exec E ud argE) ∧
    NotbolSuffixExec E ud argE st (gsub_exec E ud argE st) ∧
    NotbolSuffixExec E ud argE st (split_exec E ud argE st) := by
  refine ⟨?_, ?_, ?_⟩
  · apply notbolSuffixExec_intro
    · rfl
    · rfl
    · rfl
    · intro h
      simp [gmatch_exec, h]
    · intro h
      simp [gmatch_exec, h]
    · by_cases h : argE.startoffset > 0 <;> simp [gmatch_exec, h]
    · by_cases h : argE.startoffset > 0 <;> simp [gmatch_exec, h]
  · apply notbolSuffixExec_intro
    · rfl
    · rfl
    · rfl
    · intro h
      simp [gsub_exec, h]
    · intro h
      simp [gsub_exec, h]
    · by_cases h : st > 0 <;> simp [gsub_exec, h]
    · by_cases h : st > 0 <;> simp [gsub_exec, h]
  · apply notbolSuffixExec_intro
    · rfl
    · rfl
    · rfl
    · intro h
      simp [split_exec, h]
    · intro h
      simp [split_exec, h]
    · by_cases h : st > 0 <;> simp [split_exec, h]
    · by_cases h : st > 0 <;> simp [split_exec, h]

/-- Witness of C8: `gsub_exec` on the text `ab` at offset 1 returns the code of
the engine on the call that has `REG_NOTBOL` set and hands over the one
remaining character. -/
theorem iterative_exec_notbol_suffix_witness :
    (gsub_exec dotE dotUd dotArgE 1).code =
      (dotE.regnexec (gsub_exec dotE dotUd dotArgE 1).call).code ∧
    (gsub_exec dotE dotUd dotArgE 1).call.eflags = Int.lor dotArgE.eflags dotE.REG_NOTBOL ∧
    (gsub_exec dotE dotUd dotArgE 1).call.len = 2 - 1 ∧
    (gsub_exec dotE dotUd dotArgE 1).call.str.read (gsub_exec dotE dotUd dotArgE 1).call.len =
      ['b'] :=
  ⟨(iterative_exec_notbol_suffix dotE dotUd dotArgE 1).2.1.1,
    (iterative_exec_notbol_suffix dotE dotUd dotArgE 1).2.1.2.2.2.1 (by decide),
    ((iterative_exec_notbol_suffix dotE dotUd dotArgE 1).2.1.2.2.2.2.2.2.2
      (by decide) (by decide) (by decide)).1,
    ((iterative_exec_notbol_suffix dotE dotUd dotArgE 1).2.1.2.2.2.2.2.2.2
      (by decide) (by decide) (by decide)).2 rfl rfl⟩

/-! ## Release of the pattern object -/

theorem Ltre_gc_freed (s : GcState) (h : s.ud.freed ≠ 0) : Ltre_gc s = s := by
  simp [Ltre_gc, h]

theorem Ltre_gc_iterate_freed (s : GcState) (h : s.ud.freed ≠ 0) (k : Nat) :
    Nat.iterate Ltre_gc k s = s := by
  induction k with
  | zero => rfl
  | succ k ih => rw [Function.iterate_succ_apply, Ltre_gc_freed s h, ih]

theorem Ltre_gc_first (s : GcState) (h : s.ud.freed = 0) :
    Ltre_gc s =
      { ud := { s.ud with freed := 1 },
        regfree_calls := s.regfree_calls + 1,
        free_calls := if s.ud.match_.isSome then s.free_calls + 1 else s.free_calls } := by
  simp [Ltre_gc, h]

theorem compile_regex_fresh (E : Externals) (argC : TArgComp) (ud : TPosix)
    (hc : compile_regex E argC = Except.ok ud) :
    ud.freed = 0 ∧ ud.match_.isSome = true := by
  unfold compile_regex at hc
  simp only [generate_error] at hc
  split at hc
  · simp at hc
  · split at hc
    · simp at hc
    · simp only [Except.ok.injEq] at hc
      rw [← hc]
      constructor
      · split <;> rfl
      · rfl

/-- C9: on a pattern object whose `freed` flag is 0, any sequence of k + 1 calls
of `Ltre_gc` has the effect of the first call alone: `regfree` is called once,
the match buffer is freed once when it is not `NULL`, and `freed` becomes 1.  A
call on an object whose `freed` flag is not 0 changes nothing, so the flag never
returns to 0.  For the object that a successful `compile_regex` returns, this
makes exactly one `regfree` and exactly one `free` of the match buffer. -/
theorem Ltre_gc_releases_once :
    (∀ (s : GcState) (k : Nat), s.ud.freed = 0 →
      Nat.iterate Ltre_gc (k + 1) s = Ltre_gc s ∧
      (Ltre_gc s).ud = { s.ud with freed := 1 } ∧
      (Ltre_gc s).regfree_calls = s.regfree_calls + 1 ∧
      (Ltre_gc s).free_calls = s.free_calls + (if s.ud.match_.isSome then 1 else 0)) ∧
    (∀ s : GcState, s.ud.freed ≠ 0 → Ltre_gc s = s) ∧
    (∀ (E : Externals) (argC : TArgComp) (ud : TPosix) (k : Nat),
      compile_regex E argC = Except.ok ud →
      Nat.iterate Ltre_gc (k + 1) (fresh ud) =
        { ud := { ud with freed := 1 }, regfree_calls := 1, free_calls := 1 }) := by
  refine ⟨?_, Ltre_gc_freed, ?_⟩
  · intro s k h
    refine ⟨?_, ?_, ?_, ?_⟩
    · rw [Function.iterate_succ_apply]
      apply Ltre_gc_iterate_freed
      rw [Ltre_gc_first s h]
      simp
    · rw [Ltre_gc_first s h]
    · rw [Ltre_gc_first s h]
    · rw [Ltre_gc_first s h]
      by_cases hm : s.ud.match_.isSome <;> simp [hm]
  · intro E argC ud k hc
    obtain ⟨hf, hm⟩ := compile_regex_fresh E argC ud hc
    have hfresh : (fresh ud).ud.freed = 0 := hf
    rw [Function.iterate_succ_apply, Ltre_gc_first _ hfresh]
    rw [Ltre_gc_iterate_freed _ (by simp)]
    simp [fresh, hm]

/-- Witness of C9: three release calls on the compiled pattern `.`. -/
theorem Ltre_gc_releases_once_witness :
    Nat.iterate Ltre_gc (2 + 1) (fresh dotUd) =
      { ud := { dotUd with freed := 1 }, regfree_calls := 1, free_calls := 1 } :=
  Ltre_gc_releases_once.2.2 dotE { pattern := ['.'], patlen := 1, cflags := 1 } dotUd 2 rfl

/-! ## The match buffer and the slot count -/

/-- The match buffer of `ud` is allocated and has `NSUB (ud) + 1` slots. -/
def BufferSized (ud : TPosix) : Prop :=
  ∃ buf, ud.match_ = some buf ∧ (buf.length : Int) = NSUB ud + 1

/-- The engine is handed the match buffer of `ud` and a slot count `nmatch`
equal to the allocated length of that buffer. -/
def SlotsAgree (ud : TPosix) (nmatch : Nat) (pmatch : Option (List regmatch_t)) : Prop :=
  ∃ buf, ud.match_ = some buf ∧ pmatch = some buf ∧ nmatch = buf.length

/-- An exec helper entered with `ud`, `o` being its outcome: its return code
and the slots written to `ud->match` are those of `regnexec` applied to the call
`o.call`; that call hands the engine the pattern `ud->r` and the buffer with its
allocated length; the compiled pattern and the buffer size are left as they
were. -/
def ExecKeepsBuffer (E : Externals) (ud : TPosix) (o : ExecOutcome) : Prop :=
  o.code = (E.regnexec o.call).code ∧
  o.ud = after_exec ud o.call.nmatch (E.regnexec o.call).written ∧
  o.call.preg = ud.r ∧
  SlotsAgree ud o.call.nmatch o.call.pmatch ∧ o.ud.r = ud.r ∧ BufferSized o.ud

theorem store_matches_length (b : List regmatch_t) (n : Nat) (w : List regmatch_t) :
    (store_matches b n w).length = b.length := by
  induction b generalizing n w with
  | nil => simp [store_matches]
  | cons x xs ih =>
    cases n with
    | zero => simp [store_matches]
    | succ n =>
      cases w with
      | nil => simp [store_matches]
      | cons y ys => simp [store_matches, ih]

theorem after_exec_bufferSized (ud : TPosix) (n : Nat) (w : List regmatch_t)
    (h : BufferSized ud) : (after_exec ud n w).r = ud.r ∧ BufferSized (after_exec ud n w) := by
  obtain ⟨buf, hb, hl⟩ := h
  refine ⟨rfl, store_matches buf n w, ?_, ?_⟩
  · simp [after_exec, hb]
  · rw [store_matches_length]
    exact hl

theorem bufferSized_slots (ud : TPosix) (h : BufferSized ud) :
    SlotsAgree ud (int_to_size (NSUB ud + 1)) ud.match_ := by
  obtain ⟨buf, hb, hl⟩ := h
  refine ⟨buf, hb, hb, ?_⟩
  rw [← hl]
  apply int_to_size_of_nat
  have h1 : NSUB ud + 1 ≤ 2 ^ 31 := by
    have := size_to_int_le_max ud.r.re_nsub
    unfold NSUB
    omega
  have h2 : (buf.length : Int) ≤ 2 ^ 31 := by omega
  unfold SIZE_MOD
  omega

theorem exec_keeps_buffer (E : Externals) (ud : TPosix) (h : BufferSized ud)
    (argE : TArgExec) (st : Int) :
    ExecKeepsBuffer E ud (tfind_exec E ud argE) ∧
    ExecKeepsBuffer E ud (findmatch_exec E ud argE) ∧
    ExecKeepsBuffer E ud (gmatch_exec E ud argE) ∧
    ExecKeepsBuffer E ud (gsub_exec E ud argE st) ∧
    ExecKeepsBuffer E ud (split_exec E ud argE st) := by
  have hs := bufferSized_slots ud h
  refine ⟨⟨rfl, rfl, rfl, hs, ?_⟩, ⟨rfl, rfl, rfl, hs, ?_⟩, ⟨rfl, rfl, rfl, hs, ?_⟩,
    ⟨rfl, rfl, rfl, hs, ?_⟩, ⟨rfl, rfl, rfl, hs, ?_⟩⟩ <;>
    exact after_exec_bufferSized ud _ _ h

theorem generic_atfind_ud (E : Externals) (args : List LuaValue) (tfind : Int)
    (argE : TArgExec) (ud : TPosix) (argP : regaparams_t)
    (hargs : checkarg_atfind E args = Except.ok (argE, ud, argP)) :
    (generic_atfind E args tfind).ud =
      if argE.startoffset > size_to_int argE.textlen then some ud
      else some (atfind_ud E ud argE argP) := by
  unfold generic_atfind
  rw [hargs]
  by_cases hguard : argE.startoffset > size_to_int argE.textlen
  · simp only [hguard, if_true]
  · simp only [hguard, if_false]
    split
    · rfl
    · split <;> rfl

theorem compile_regex_sized (E : Externals) (argC : TArgComp) (ud : TPosix)
    (hc : compile_regex E argC = Except.ok ud)
    (hns : (ud.r.re_nsub : Int) < INT_MAX) :
    ud.r.re_nsub =
      (if Int.land argC.cflags E.REG_NOSUB ≠ 0 then 0
        else (E.regncomp argC.pattern argC.patlen argC.cflags).2.re_nsub) ∧
    NSUB ud = (ud.r.re_nsub : Int) ∧
    ∃ buf, ud.match_ = some buf ∧ buf.length = ud.r.re_nsub + 1 := by
  have hN : NSUB ud = (ud.r.re_nsub : Int) := by
    unfold NSUB
    apply size_to_int_of_le
    omega
  have hsz : (int_to_size (NSUB ud + 1) * sizeof_regmatch_t) % SIZE_MOD / sizeof_regmatch_t
      = ud.r.re_nsub + 1 := by
    rw [hN]
    have h1 : ((ud.r.re_nsub : Int) + 1) = ((ud.r.re_nsub + 1 : Nat) : Int) := by push_cast; rfl
    unfold INT_MAX at hns
    rw [h1, int_to_size_of_nat _ (by unfold SIZE_MOD; omega)]
    unfold sizeof_regmatch_t SIZE_MOD
    omega
  unfold compile_regex at hc
  simp only [generate_error] at hc
  split at hc
  · simp at hc
  · split at hc
    · simp at hc
    · simp only [Except.ok.injEq] at hc
      by_cases hl : Int.land argC.cflags E.REG_NOSUB ≠ 0
      · rw [if_pos hl] at hc
        subst hc
        refine ⟨by rw [if_pos hl], hN, _, rfl, ?_⟩
        simp only [block, List.length_replicate]
        exact hsz
      · rw [if_neg hl] at hc
        subst hc
        refine ⟨by rw [if_neg hl], hN, _, rfl, ?_⟩
        simp only [block, List.length_replicate]
        exact hsz

/-- C10: for every pattern that `compile_regex` compiles successfully (with a
group count that fits an `int`), `NSUB` is the capture-group count of the engine,
or 0 when `REG_NOSUB` is among the compile flags, and the match buffer is
allocated with exactly `NSUB + 1` slots.  On every userdata whose buffer has
that size, each exec path (`tfind_exec`, `findmatch_exec`, `gmatch_exec`,
`gsub_exec`, `split_exec`, `generic_atfind`) returns what the engine returns
when applied to that pattern and that buffer with `nmatch` equal to the
allocated length of the buffer, and leaves the pattern and the buffer size
unchanged, so that the same holds for every later call. -/
theorem compile_regex_buffer_matches_nmatch (E : Externals) (argC : TArgComp) (ud : TPosix)
    (hc : compile_regex E argC = Except.ok ud)
    (hns : (ud.r.re_nsub : Int) < INT_MAX) :
    NSUB ud =
      (if Int.land argC.cflags E.REG_NOSUB ≠ 0 then 0
        else ((E.regncomp argC.pattern argC.patlen argC.cflags).2.re_nsub : Int)) ∧
    (∃ buf, ud.match_ = some buf ∧ (buf.length : Int) = NSUB ud + 1) ∧
    (∀ ud1 : TPosix, (ud1 = ud ∨ BufferSized ud1) →
      (∀ (argE : TArgExec) (st : Int),
        ExecKeepsBuffer E ud1 (tfind_exec E ud1 argE) ∧
        ExecKeepsBuffer E ud1 (findmatch_exec E ud1 argE) ∧
        ExecKeepsBuffer E ud1 (gmatch_exec E ud1 argE) ∧
        ExecKeepsBuffer E ud1 (gsub_exec E ud1 argE st) ∧
        ExecKeepsBuffer E ud1 (split_exec E ud1 argE st)) ∧
      (∀ (args : List LuaValue) (tfind : Int) (argE : TArgExec) (argP : regaparams_t),
        checkarg_atfind E args = Except.ok (argE, ud1, argP) →
        (¬ argE.startoffset > size_to_int argE.textlen →
          (generic_atfind E args tfind).calls = [atfind_call ud1 argE argP]) ∧
        (∀ call ∈ (generic_atfind E args tfind).calls,
          call.preg = ud1.r ∧
          SlotsAgree ud1 call.nmatch call.pmatch ∧
          (generic_atfind E args tfind).ud =
            some (after_exec ud1 call.nmatch (E.reganexec call).written) ∧
          ((E.reganexec call).code = 0 ↔
            ∃ a b c, (generic_atfind E args tfind).ret = Except.ok [a, b, c])) ∧
        (∀ ud2, (generic_atfind E args tfind).ud = some ud2 →
          ud2.r = ud1.r ∧ BufferSized ud2))) := by
  obtain ⟨hn, hN, buf, hb, hl⟩ := compile_regex_sized E argC ud hc hns
  have hsized : BufferSized ud := ⟨buf, hb, by rw [hl, hN]; push_cast; rfl⟩
  refine ⟨?_, hsized, ?_⟩
  · rw [hN, hn]
    split <;> rfl
  · intro ud1 h1
    have hs1 : BufferSized ud1 := by
      rcases h1 with h1 | h1
      · rw [h1]
        exact hsized
      · exact h1
    refine ⟨fun argE st => exec_keeps_buffer E ud1 hs1 argE st, ?_⟩
    intro args tfind argE argP hargs
    refine ⟨fun hguard => generic_atfind_calls E args tfind argE ud1 argP hargs hguard, ?_, ?_⟩
    · intro call hcall
      by_cases hguard : argE.startoffset > size_to_int argE.textlen
      · rw [(atfind_guard_fires E args tfind argE ud1 argP hargs hguard).2] at hcall
        simp at hcall
      · rw [generic_atfind_calls E args tfind argE ud1 argP hargs hguard] at hcall
        simp only [List.mem_singleton] at hcall
        rw [hcall]
        refine ⟨rfl, bufferSized_slots ud1 hs1, ?_, ?_⟩
        · rw [generic_atfind_ud E args tfind argE ud1 argP hargs, if_neg hguard]
          rfl
        · rw [generic_atfind_ret E args tfind argE ud1 argP hargs hguard]
          by_cases h0 : (E.reganexec (atfind_call ud1 argE argP)).code = 0
          · rw [if_pos h0]
            simp [h0]
          · by_cases h1 : (E.reganexec (atfind_call ud1 argE argP)).code = E.REG_NOMATCH
            · rw [if_neg h0, if_pos h1]
              simp [h0]
            · rw [if_neg h0, if_neg h1]
              simp [h0]
    · intro ud2 h2
      rw [generic_atfind_ud E args tfind argE ud1 argP hargs] at h2
      by_cases hguard : argE.startoffset > size_to_int argE.textlen
      · rw [if_pos hguard] at h2
        simp only [Option.some.injEq] at h2
        rw [← h2]
        exact ⟨rfl, hs1⟩
      · rw [if_neg hguard] at h2
        simp only [Option.some.injEq] at h2
        rw [← h2]
        exact after_exec_bufferSized ud1 _ _ hs1

/-- Witness of C10: the pattern `.` compiled with the flag `REG_EXTENDED`; no
group, one slot; `aexec` on the text `ab` makes one engine search, with one
slot, and `findmatch_exec` returns the code of the engine on a call with one
slot. -/
theorem compile_regex_buffer_matches_nmatch_witness :
    NSUB dotUd = 0 ∧
    (∃ buf, dotUd.match_ = some buf ∧ (buf.length : Int) = NSUB dotUd + 1) ∧
    ExecKeepsBuffer dotE dotUd (findmatch_exec dotE dotUd dotArgE) ∧
    (generic_atfind dotE dotArgs 0).calls = [atfind_call dotUd dotArgE ⟨0, 0, 0, 0, 0, 0, 0, 0⟩] ∧
    (∀ call ∈ (generic_atfind dotE dotArgs 0).calls, call.preg = dotUd.r ∧
      SlotsAgree dotUd call.nmatch call.pmatch ∧
      (generic_atfind dotE dotArgs 0).ud =
        some (after_exec dotUd call.nmatch (dotE.reganexec call).written) ∧
      ((dotE.reganexec call).code = 0 ↔
        ∃ a b c, (generic_atfind dotE dotArgs 0).ret = Except.ok [a, b, c])) :=
  ⟨(compile_regex_buffer_matches_nmatch dotE { pattern := ['.'], patlen := 1, cflags := 1 }
      dotUd rfl (by decide)).1,
    (compile_regex_buffer_matches_nmatch dotE { pattern := ['.'], patlen := 1, cflags := 1 }
      dotUd rfl (by decide)).2.1,
    (((compile_regex_buffer_matches_nmatch dotE { pattern := ['.'], patlen := 1, cflags := 1 }
      dotUd rfl (by decide)).2.2 dotUd (Or.inl rfl)).1 dotArgE 0).2.1,
    ((((compile_regex_buffer_matches_nmatch dotE { pattern := ['.'], patlen := 1, cflags := 1 }
      dotUd rfl (by decide)).2.2 dotUd (Or.inl rfl)).2 dotArgs 0 dotArgE
        ⟨0, 0, 0, 0, 0, 0, 0, 0⟩ rfl).1 (by decide)),
    (((compile_regex_buffer_matches_nmatch dotE { pattern := ['.'], patlen := 1, cflags := 1 }
      dotUd rfl (by decide)).2.2 dotUd (Or.inl rfl)).2 dotArgs 0 dotArgE
        ⟨0, 0, 0, 0, 0, 0, 0, 0⟩ rfl).2.1⟩

end Ltre
